import Mathlib

/-!
Shallow embedding of the Confluence search collator
(`plugins/search-confluence-backend/src/search/ConfluenceCollatorFactory/ConfluenceCollatorFactory.ts`)
together with the record types it consumes
(`plugins/search-confluence-backend/src/search/ConfluenceCollatorFactory/types.ts`).

The collator is a paginated fetch-and-transform pipeline: resolve wiki
spaces, enumerate page self-links per space, fetch and normalise each page,
strip HTML from the body, and emit indexable documents.  Network effects are
modelled by passing fetch oracles explicitly; JavaScript `undefined`/missing
JSON fields become `Option`; thrown errors become `Except`.
-/

namespace Confluence

/-- Links record carried by `ConfluenceDocumentMetadata` (`_links` in the
JSON).  `self` is the page's canonical API URL, `webui` its relative web
link. -/
structure MetadataLinks where
  self : String
  webui : String
  deriving Repr, DecidableEq

/-- Source type `ConfluenceDocumentMetadata`: title, status and links of a
page as returned by the content-list endpoint. -/
structure ConfluenceDocumentMetadata where
  title : String
  status : String
  links : MetadataLinks
  deriving Repr, DecidableEq

/-- Source type `ConfluenceDocumentList`: one page of the content-list
endpoint.  The JSON may omit `results` (checked by `if (!data.results)`)
and `_links.next` (checked by `if (data._links.next)`), so both are
`Option` here. -/
structure ConfluenceDocumentList where
  results : Option (List ConfluenceDocumentMetadata)
  next : Option String
  deriving Repr, DecidableEq

/-- Version record of a fetched page (`version` in the JSON). -/
structure DocumentVersion where
  byPublicName : String
  when : String
  friendlyWhen : String
  deriving Repr, DecidableEq

/-- Space record of a fetched page (`space` in the JSON). -/
structure DocumentSpace where
  key : String
  name : String
  webui : String
  deriving Repr, DecidableEq

/-- Source type `ConfluenceDocument`: the full page-detail record fetched
with `?expand=body.storage,space,ancestors,version`.  It extends
`ConfluenceDocumentMetadata` with body, version, space and the ancestor
chain. -/
structure ConfluenceDocument where
  title : String
  status : String
  links : MetadataLinks
  bodyStorageValue : String
  version : DocumentVersion
  space : DocumentSpace
  ancestors : List ConfluenceDocumentMetadata
  deriving Repr, DecidableEq

/-- Source type `IndexableAncestorRef`: a normalised `{title, location}`
breadcrumb entry. -/
structure IndexableAncestorRef where
  title : String
  location : String
  deriving Repr, DecidableEq

/-- Source type `IndexableConfluenceDocument`: the emitted document record
(the `IndexableDocument` base fields `title`, `text`, `location` inlined). -/
structure IndexableConfluenceDocument where
  title : String
  text : String
  location : String
  spaceKey : String
  spaceName : String
  ancestors : List IndexableAncestorRef
  lastModifiedBy : String
  lastModified : String
  lastModifiedFriendly : String
  deriving Repr, DecidableEq

/-! ## stripHtml

`stripHtml` is `input.replace(/(<([^>]+)>)/gi, '')`: a global, left-to-right,
non-overlapping removal of every maximal-start match of `<[^>]+>`.  At a
given `<`, the greedy `[^>]+` consumes the run of non-`>` characters up to
the next `>` (at least one is required), and the `>` closes the match; if
the character right after `<` is `>` or no `>` follows at all, there is no
match at that position and scanning resumes at the next character. -/

/-- Scan forward for the first `>`; on success return the suffix just after
it (the rest of the input once the tag is consumed).  Mirrors the greedy
`[^>]+>` tail of the regex. -/
def findClose : List Char → Option (List Char)
  | [] => none
  | c :: rest => if c = '>' then some rest else findClose rest

theorem findClose_length_lt (l : List Char) : ∀ after,
    findClose l = some after → after.length < l.length := by
  induction l with
  | nil => intro after h; exact absurd h (by simp [findClose])
  | cons c rest ih =>
    intro after h
    simp only [findClose] at h
    split at h
    · cases h; simp
    · exact Nat.lt_trans (ih after h) (by simp)

/-- Whether the regex `<[^>]+>` has a match starting at the current
position: the current character is `<`, the next character exists and is
not `>` (so `[^>]+` can consume at least one character), and some later
`>` closes the tag. -/
def isTagStart (c : Char) (rest : List Char) : Bool :=
  c = '<' &&
    (match rest with
     | [] => false
     | d :: _ => decide (d ≠ '>')) &&
    (findClose rest).isSome

theorem isTagStart_isSome {c : Char} {rest : List Char}
    (h : isTagStart c rest = true) : (findClose rest).isSome := by
  simp only [isTagStart, Bool.and_eq_true] at h
  exact h.2

/-- Fuelled core of `stripHtml`, following the regex engine's
left-to-right scan: where a match of `<[^>]+>` starts, drop everything
through its closing `>` and continue after it; everywhere else keep the
character and rescan from the next position.  Every step consumes at least
one input character, so fuel equal to the input length (as supplied by
`stripCore`) always suffices; recursion is structural on the fuel so that
evaluation is kernel-reducible. -/
def stripCoreFuel : Nat → List Char → List Char
  | 0, l => l
  | fuel + 1, l =>
    match l with
    | [] => []
    | c :: rest =>
      if h : isTagStart c rest = true then
        stripCoreFuel fuel ((findClose rest).get (isTagStart_isSome h))
      else
        c :: stripCoreFuel fuel rest

/-- The regex scan with enough fuel for the whole input. -/
def stripCore (l : List Char) : List Char :=
  stripCoreFuel l.length l

/-- Method `stripHtml` of `ConfluenceCollatorFactory`:
`input.replace(/(<([^>]+)>)/gi, '')`. -/
def stripHtml (input : String) : String :=
  String.mk (stripCore input.data)

/-- Above the input length the fuel is irrelevant: the scan already
terminates on its own. -/
theorem stripCoreFuel_of_le : ∀ (n : Nat) (l : List Char) (fuel : Nat),
    l.length ≤ n → l.length ≤ fuel → stripCoreFuel fuel l = stripCore l := by
  intro n
  induction n with
  | zero =>
    intro l fuel hn _
    have hl : l = [] := List.eq_nil_of_length_eq_zero (Nat.le_zero.mp hn)
    subst hl
    cases fuel <;> rfl
  | succ n ih =>
    intro l fuel hn hfuel
    match l with
    | [] => cases fuel <;> rfl
    | c :: rest =>
      match fuel with
      | fuel' + 1 =>
        show (if h : isTagStart c rest = true then
                stripCoreFuel fuel' ((findClose rest).get (isTagStart_isSome h))
              else c :: stripCoreFuel fuel' rest) = stripCore (c :: rest)
        have hrest_n : rest.length ≤ n := by simp at hn; omega
        have hrest_f : rest.length ≤ fuel' := by simp at hfuel; omega
        rw [stripCore]
        show _ = (if h : isTagStart c rest = true then
                stripCoreFuel rest.length ((findClose rest).get (isTagStart_isSome h))
              else c :: stripCoreFuel rest.length rest)
        by_cases h : isTagStart c rest = true
        · rw [dif_pos h, dif_pos h]
          have hlt := findClose_length_lt rest
            ((findClose rest).get (isTagStart_isSome h))
            (Option.some_get (isTagStart_isSome h)).symm
          rw [ih _ fuel' (by omega) (by omega),
            ih _ rest.length (by omega) (by omega)]
        · rw [dif_neg h, dif_neg h,
            ih rest fuel' hrest_n hrest_f, ih rest rest.length hrest_n le_rfl]

/-- Decides whether a character list contains a substring matching the tag
pattern `<[^>]+>`: some position is a tag start in the sense of
`isTagStart`. -/
def hasTag : List Char → Bool
  | [] => false
  | c :: rest => isTagStart c rest || hasTag rest

/-- String-level tag detector applied to the stripped text. -/
def hasTagStr (s : String) : Bool :=
  hasTag s.data

/-! ## Page transformer: `getDocumentInfo`

In the source, `getDocumentInfo(documentUrl)` fetches
`{documentUrl}?expand=body.storage,space,ancestors,version` through `get`
and then normalises the fetched record.  The pure normalisation step is
embedded here as a function of the already-fetched `ConfluenceDocument`;
the fetch itself is reintroduced by `transformPage` below via an explicit
fetch oracle. -/

/-- Pure part of `getDocumentInfo`: the guard
`if (!data.status || data.status !== 'current') return []` (a missing or
empty status is falsy and likewise filtered; as a Lean `String` the empty
string already differs from `"current"`), then the ancestor list seeded
with the page's own space followed by the raw ancestor chain in order, and
a single emitted document. -/
def getDocumentInfo (wikiUrl : String) (data : ConfluenceDocument) :
    List IndexableConfluenceDocument :=
  if data.status ≠ "current" then [] else
    let ancestors : List IndexableAncestorRef :=
      { title := data.space.name
        location := wikiUrl ++ data.space.webui } ::
      data.ancestors.map (fun ancestor =>
        { title := ancestor.title
          location := wikiUrl ++ ancestor.links.webui })
    [{ title := data.title
       text := stripHtml data.bodyStorageValue
       location := wikiUrl ++ data.links.webui
       spaceKey := data.space.key
       spaceName := data.space.name
       ancestors := ancestors
       lastModifiedBy := data.version.byPublicName
       lastModified := data.version.when
       lastModifiedFriendly := data.version.friendlyWhen }]

/-- Composition of `getDocumentInfo` with its page-detail fetch: the oracle stands for the
wiki API; a `.error` is a thrown fetch failure (e.g. a non-2xx response
raised by `get`). -/
def transformPage (fetchDoc : String → Except String ConfluenceDocument)
    (wikiUrl documentUrl : String) :
    Except String (List IndexableConfluenceDocument) := do
  let data ← fetchDoc (documentUrl ++ "?expand=body.storage,space,ancestors,version")
  pure (getDocumentInfo wikiUrl data)

/-! ## Collation pipeline: `execute`

`execute` maps every page reference through a p-limit slot, with a
try/catch around the transform and a `.catch` on each resulting promise;
both handlers log a warning and produce `[]`, so a failing page
contributes zero documents.  `Promise.all` preserves submission order and
the results are flattened and yielded in that order. -/

/-- One guarded transform from `execute`: the `try { return
this.getDocumentInfo(document) } catch { ... return [] }` body together
with the `promise.catch(error => ... return [])` wrapper — any failure
becomes the empty document list. -/
def safeTransform (transform : String → Except String (List IndexableConfluenceDocument))
    (document : String) : List IndexableConfluenceDocument :=
  match transform document with
  | .ok docs => docs
  | .error _ => []

/-- Document sequence produced by `execute` from a batch of page
references: every reference is transformed under the failure guard and the
per-page lists are flattened in submission order (`Promise.all` keeps
order). -/
def executeDocs (transform : String → Except String (List IndexableConfluenceDocument))
    (documentsList : List String) : List IndexableConfluenceDocument :=
  (documentsList.map (safeTransform transform)).flatten

/-! ## Page enumerator: `getDocumentsFromSpace`

The source loops `while (next)`: fetch the list JSON; `if (!data.results)
break`; push every result's `_links.self`; follow `{wikiUrl}{_links.next}`
when present, else stop.  The loop has no bound in the source (a cyclic
`next` chain would run forever), so the embedding takes explicit fuel; the
theorems only need enough fuel for the chains they mention.  The oracle
maps a request URL to the decoded list response, and the result carries
the number of list fetches performed. -/

def crawlSpace (fetchList : String → ConfluenceDocumentList) (wikiUrl : String) :
    Nat → String → List String × Nat
  | 0, _ => ([], 0)
  | fuel + 1, requestUrl =>
    let data := fetchList requestUrl
    match data.results with
    | none => ([], 1)
    | some results =>
      let links := results.map (fun result => result.links.self)
      match data.next with
      | some nextPath =>
        let rest := crawlSpace fetchList wikiUrl fuel (wikiUrl ++ nextPath)
        (links ++ rest.1, rest.2 + 1)
      | none => (links, 1)

/-- Method `getDocumentsFromSpace(space)`: start the crawl at
`{wikiUrl}/rest/api/content?limit=1000&status=current&spaceKey={space}`. -/
def getDocumentsFromSpace (fetchList : String → ConfluenceDocumentList)
    (wikiUrl : String) (fuel : Nat) (space : String) : List String × Nat :=
  crawlSpace fetchList wikiUrl fuel
    (wikiUrl ++ "/rest/api/content?limit=1000&status=current&spaceKey=" ++ space)

/-! ## Space resolver: `getSpaces` -/

/-- A catalog `Resource` entity as `getSpaces` consumes it: only the value
of its `ovo.com/confluence-spaces` annotation is read (the catalog filter
guarantees the annotation exists). -/
structure CatalogEntity where
  annotationValue : String
  deriving Repr, DecidableEq

/-- JavaScript `String.prototype.split(',')` on character lists: commas
separate groups, so `""` yields one empty group and adjacent commas yield
empty groups. -/
def splitComma : List Char → List (List Char)
  | [] => [[]]
  | c :: rest =>
    if c = ',' then
      [] :: splitComma rest
    else
      match splitComma rest with
      | [] => [[c]]
      | grp :: grps => (c :: grp) :: grps

/-- Whitespace stripped by `String.prototype.trim()` (restricted to the
ASCII whitespace that can occur in annotation values). -/
def isJsWhitespace (c : Char) : Bool :=
  c = ' ' || c = '\t' || c = '\n' || c = '\r'

/-- JavaScript `String.prototype.trim()`: drop whitespace from both
ends. -/
def jsTrim (s : String) : String :=
  String.mk
    (((s.data.dropWhile isJsWhitespace).reverse.dropWhile isJsWhitespace).reverse)

/-- JavaScript `s.split(',')` as a string operation. -/
def jsSplitComma (s : String) : List String :=
  (splitComma s.data).map String.mk

/-- Catalog branch of `getSpaces`: for each matching entity, split the
annotation value on commas (`annotation.split(',')`), trim each token
(`.map(item => item.trim())`), and push all tokens into one accumulated
list — a passthrough accumulation with no deduplication. -/
def getSpacesFromCatalog (items : List CatalogEntity) : List String :=
  items.flatMap (fun entity =>
    (jsSplitComma entity.annotationValue).map jsTrim)

/-- Method `getSpaces`: with a catalog client configured (modelled as the list of
entities its filtered query returns), resolve spaces from annotations;
otherwise return the statically configured list verbatim. -/
def getSpaces (catalogItems : Option (List CatalogEntity))
    (staticSpaces : List String) : List String :=
  match catalogItems with
  | some items => getSpacesFromCatalog items
  | none => staticSpaces

/-! ## Fetch wrapper: `get` -/

/-- An HTTP response as the wrapper observes it: status line plus the
decoded JSON body the transport would yield on success.  `node-fetch`
defines `res.ok` as status in the range 200–299. -/
structure HttpResponse (T : Type) where
  status : Nat
  statusText : String
  jsonBody : T
  deriving Repr, DecidableEq

/-- The `res.ok` predicate of the underlying fetch: 2xx status. -/
def responseOk {T : Type} (res : HttpResponse T) : Bool :=
  200 ≤ res.status && res.status < 300

/-- Method `get` of `ConfluenceCollatorFactory`: on `res.ok` return the
decoded JSON body; otherwise throw
`new Error("Request failed with " + res.status + " " + res.statusText)`. -/
def get {T : Type} (res : HttpResponse T) : Except String T :=
  if responseOk res then
    .ok res.jsonBody
  else
    .error ("Request failed with " ++ toString res.status ++ " " ++ res.statusText)

/-! ## Construction: `fromConfig` -/

/-- JavaScript `a || b` on an optional number: `undefined` and `0` are
falsy, so both select the default. -/
def jsOrNat (value : Option Nat) (deflt : Nat) : Nat :=
  match value with
  | none => deflt
  | some n => if n = 0 then deflt else n

/-- The `parallelismLimit` the factory is constructed with in `fromConfig`:
`options.parallelismLimit || 15`. -/
def fromConfigParallelismLimit (optionsParallelismLimit : Option Nat) : Nat :=
  jsOrNat optionsParallelismLimit 15

/-! ## Lemmas about `stripHtml` -/

theorem stripCore_nil : stripCore [] = [] := rfl

theorem stripCore_cons (c : Char) (rest : List Char) :
    stripCore (c :: rest) =
      if h : isTagStart c rest = true then
        stripCore ((findClose rest).get (isTagStart_isSome h))
      else
        c :: stripCore rest := by
  show (if h : isTagStart c rest = true then
          stripCoreFuel rest.length ((findClose rest).get (isTagStart_isSome h))
        else c :: stripCoreFuel rest.length rest) = _
  by_cases h : isTagStart c rest = true
  · rw [dif_pos h, dif_pos h]
    have hlt := findClose_length_lt rest
      ((findClose rest).get (isTagStart_isSome h))
      (Option.some_get (isTagStart_isSome h)).symm
    exact stripCoreFuel_of_le rest.length _ rest.length (by omega) (by omega)
  · rw [dif_neg h, dif_neg h]
    rfl

theorem findClose_eq_none_iff (l : List Char) :
    findClose l = none ↔ '>' ∉ l := by
  induction l with
  | nil => simp [findClose]
  | cons c rest ih =>
    by_cases hc : c = '>'
    · simp [findClose, hc]
    · simp only [findClose, if_neg hc, ih, List.mem_cons]
      constructor
      · intro hr hor
        rcases hor with he | hm
        · exact hc he.symm
        · exact hr hm
      · intro hr hm
        exact hr (Or.inr hm)

theorem isTagStart_false_of_no_close {c : Char} {rest : List Char}
    (h : findClose rest = none) : isTagStart c rest = false := by
  simp [isTagStart, h]

/-- On input free of `>` the regex never matches, so the replacement is the
identity. -/
theorem stripCore_id_of_no_gt (l : List Char) (h : '>' ∉ l) :
    stripCore l = l := by
  induction l with
  | nil => exact stripCore_nil
  | cons c rest ih =>
    have hrest : '>' ∉ rest := fun hm => h (List.mem_cons_of_mem c hm)
    have hclose : findClose rest = none := (findClose_eq_none_iff rest).mpr hrest
    rw [stripCore_cons, dif_neg]
    · rw [ih hrest]
    · simp [isTagStart_false_of_no_close hclose]

theorem hasTag_false_of_no_gt (l : List Char) (h : '>' ∉ l) :
    hasTag l = false := by
  induction l with
  | nil => rfl
  | cons c rest ih =>
    have hrest : '>' ∉ rest := fun hm => h (List.mem_cons_of_mem c hm)
    have hclose : findClose rest = none := (findClose_eq_none_iff rest).mpr hrest
    simp [hasTag, isTagStart_false_of_no_close hclose, ih hrest]

/-- Key step for the no-tag theorem: if no match starts at `c` before
stripping, none starts at `c` in front of the stripped remainder. -/
theorem isTagStart_stripCore_false {c : Char} {rest : List Char}
    (h : isTagStart c rest = false) : isTagStart c (stripCore rest) = false := by
  by_cases hc : c = '<'
  · match rest with
    | [] => simp [stripCore_nil, isTagStart]
    | d :: tail =>
      by_cases hd : d = '>'
      · subst hd
        have hfalse : isTagStart '>' tail = false := by
          simp [isTagStart]
        rw [stripCore_cons, dif_neg (by simp [hfalse])]
        simp [isTagStart]
      · have hclose : findClose (d :: tail) = none := by
          cases hf : findClose (d :: tail) with
          | none => rfl
          | some after =>
            exfalso
            simp [isTagStart, hc, hd, hf] at h
        have hno : '>' ∉ d :: tail := (findClose_eq_none_iff _).mp hclose
        rw [stripCore_id_of_no_gt _ hno]
        exact h
  · simp [isTagStart, hc]

/-- Main lemma: a single left-to-right pass of the tag-removing regex
leaves no substring matching `<[^>]+>`. -/
theorem hasTag_stripCore_eq_false : ∀ (n : Nat) (l : List Char),
    l.length ≤ n → hasTag (stripCore l) = false := by
  intro n
  induction n with
  | zero =>
    intro l h
    have : l = [] := List.eq_nil_of_length_eq_zero (Nat.le_zero.mp h)
    simp [this, stripCore_nil, hasTag]
  | succ n ih =>
    intro l h
    match l with
    | [] => simp [stripCore_nil, hasTag]
    | c :: rest =>
      rw [stripCore_cons]
      by_cases hts : isTagStart c rest = true
      · rw [dif_pos hts]
        have hsome := Option.some_get (isTagStart_isSome hts)
        have hlt := findClose_length_lt rest
          ((findClose rest).get (isTagStart_isSome hts)) hsome.symm
        exact ih _ (by simp at h; omega)
      · rw [dif_neg hts]
        have hrest : hasTag (stripCore rest) = false :=
          ih rest (by simp at h; omega)
        simp [hasTag, hrest,
          isTagStart_stripCore_false (Bool.eq_false_iff.mpr hts)]

/-- Replacement is the identity on strings the pattern does not match. -/
theorem stripCore_id_of_hasTag_false (l : List Char) (h : hasTag l = false) :
    stripCore l = l := by
  induction l with
  | nil => exact stripCore_nil
  | cons c rest ih =>
    simp only [hasTag, Bool.or_eq_false_iff] at h
    rw [stripCore_cons, dif_neg (by simp [h.1])]
    rw [ih h.2]

theorem hasTagStr_stripHtml (s : String) : hasTagStr (stripHtml s) = false :=
  hasTag_stripCore_eq_false s.data.length s.data le_rfl

/-! ## Sample fixtures used by witnesses -/

/-- A concrete page-detail record with the given status, one raw
ancestor, and an HTML body. -/
def samplePage (status : String) : ConfluenceDocument :=
  { title := "Getting started"
    status := status
    links := { self := "https://wiki.example/rest/api/content/42"
               webui := "/pages/42" }
    bodyStorageValue := "<p>Hello <b>World</b></p>"
    version := { byPublicName := "Ada"
                 when := "2020-01-01T00:00:00Z"
                 friendlyWhen := "yesterday" }
    space := { key := "ENG", name := "Engineering", webui := "/spaces/ENG" }
    ancestors := [{ title := "Parent page"
                    status := "current"
                    links := { self := "https://wiki.example/rest/api/content/1"
                               webui := "/pages/1" } }] }

/-- The document the sample current page normalises to under wiki base
`https://wiki.example/wiki`. -/
def sampleIndexedDoc : IndexableConfluenceDocument :=
  { title := "Getting started"
    text := "Hello World"
    location := "https://wiki.example/wiki/pages/42"
    spaceKey := "ENG"
    spaceName := "Engineering"
    ancestors := [{ title := "Engineering"
                    location := "https://wiki.example/wiki/spaces/ENG" },
                  { title := "Parent page"
                    location := "https://wiki.example/wiki/pages/1" }]
    lastModifiedBy := "Ada"
    lastModified := "2020-01-01T00:00:00Z"
    lastModifiedFriendly := "yesterday" }

/-- A transform oracle for the batch scenario: page `"A"` fails with a
non-2xx fetch error, any other page yields the sample document. -/
def sampleBatchTransform : String → Except String (List IndexableConfluenceDocument) :=
  fun url =>
    if url = "A" then .error "Request failed with 500 Internal Server Error"
    else .ok [sampleIndexedDoc]

/-! ## Claim theorems -/

/-- C1: in a batch where transforming one page fails and transforming
another succeeds, `execute`'s output contains exactly the successful
page's documents: the failing page contributes zero documents, no partial
document is emitted for it, and the run still produces a result rather
than aborting. -/
theorem executeDocs_isolates_failure
    (transform : String → Except String (List IndexableConfluenceDocument))
    (pageA pageB err : String) (docsB : List IndexableConfluenceDocument)
    (hA : transform pageA = .error err) (hB : transform pageB = .ok docsB) :
    executeDocs transform [pageA, pageB] = docsB := by
  simp [executeDocs, safeTransform, hA, hB]

/-- Witness for C1 at the sample batch: page `"A"` fails, page `"B"`
succeeds, and the output is exactly `"B"`'s document. -/
theorem executeDocs_isolates_failure_witness :
    executeDocs sampleBatchTransform ["A", "B"] = [sampleIndexedDoc] :=
  executeDocs_isolates_failure sampleBatchTransform "A" "B"
    "Request failed with 500 Internal Server Error" [sampleIndexedDoc]
    (by rfl) (by rfl)

/-- C2: a fetched page whose status is not exactly `"current"` is
transformed to the empty result — zero documents and no error. -/
theorem getDocumentInfo_non_current (wikiUrl : String)
    (data : ConfluenceDocument) (h : data.status ≠ "current") :
    getDocumentInfo wikiUrl data = [] := by
  rw [getDocumentInfo, if_pos h]

/-- Witness for C2 at a concrete archived page. -/
theorem getDocumentInfo_non_current_witness :
    getDocumentInfo "https://wiki.example/wiki" (samplePage "archived") = [] :=
  getDocumentInfo_non_current "https://wiki.example/wiki" (samplePage "archived")
    (by decide)

/-- C3: the emitted document of a `"current"` page carries an ancestor
list whose first element is the page's own space
(`{title: space.name, location: wikiUrl ++ space.webui}`) regardless of
how many raw ancestors exist, followed by the raw ancestor chain in API
order, each mapped to `{title, wikiUrl ++ webui}`. -/
theorem getDocumentInfo_ancestor_list (wikiUrl : String)
    (data : ConfluenceDocument) (h : data.status = "current") :
    ∃ doc, getDocumentInfo wikiUrl data = [doc] ∧
      doc.ancestors =
        { title := data.space.name
          location := wikiUrl ++ data.space.webui } ::
        data.ancestors.map (fun ancestor =>
          { title := ancestor.title
            location := wikiUrl ++ ancestor.links.webui }) := by
  rw [getDocumentInfo, if_neg (by simp [h])]
  exact ⟨_, rfl, rfl⟩

/-- Witness for C3 at the sample current page. -/
theorem getDocumentInfo_ancestor_list_witness :
    ∃ doc, getDocumentInfo "https://wiki.example/wiki" (samplePage "current") = [doc] ∧
      doc.ancestors =
        { title := (samplePage "current").space.name
          location := "https://wiki.example/wiki" ++ (samplePage "current").space.webui } ::
        (samplePage "current").ancestors.map (fun ancestor =>
          { title := ancestor.title
            location := "https://wiki.example/wiki" ++ ancestor.links.webui }) :=
  getDocumentInfo_ancestor_list "https://wiki.example/wiki" (samplePage "current")
    (by decide)

/-- C5: the stripped body text of every emitted document contains no
substring matching the tag pattern `<...>` (a `<`, at least one non-`>`
character, then `>`). -/
theorem emitted_text_tag_free (wikiUrl : String) (data : ConfluenceDocument)
    (doc : IndexableConfluenceDocument) (h : doc ∈ getDocumentInfo wikiUrl data) :
    hasTagStr doc.text = false := by
  rw [getDocumentInfo] at h
  by_cases hs : data.status ≠ "current"
  · rw [if_pos hs] at h
    exact absurd h (List.not_mem_nil doc)
  · rw [if_neg hs] at h
    have hd := List.mem_singleton.mp h
    rw [hd]
    exact hasTagStr_stripHtml _

/-- Witness for C5 at the sample current page under the sample wiki
base. -/
theorem emitted_text_tag_free_witness :
    hasTagStr sampleIndexedDoc.text = false :=
  emitted_text_tag_free "https://wiki.example/wiki" (samplePage "current")
    sampleIndexedDoc (by decide)

/-- C9: `stripHtml` is idempotent — one pass already leaves no substring
matching `<[^>]+>`, so a second pass changes nothing. -/
theorem stripHtml_idempotent (s : String) :
    stripHtml (stripHtml s) = stripHtml s := by
  show String.mk (stripCore (stripCore s.data)) = String.mk (stripCore s.data)
  rw [stripCore_id_of_hasTag_false (stripCore s.data)
    (hasTag_stripCore_eq_false s.data.length s.data le_rfl)]

/-- List metadata for the first page of the sample two-page space. -/
def sampleMeta1 : ConfluenceDocumentMetadata :=
  { title := "Page one"
    status := "current"
    links := { self := "https://wiki.example/wiki/rest/api/content/1"
               webui := "/pages/1" } }

/-- List metadata for the second page of the sample two-page space. -/
def sampleMeta2 : ConfluenceDocumentMetadata :=
  { title := "Page two"
    status := "current"
    links := { self := "https://wiki.example/wiki/rest/api/content/2"
               webui := "/pages/2" } }

/-- A list-endpoint oracle for a space with two sequential pages: the
initial content-list URL answers with one result and a `next` link, the
followed URL answers with one result and no `next` link, anything else is
a malformed response without `results`. -/
def sampleListFetch : String → ConfluenceDocumentList := fun url =>
  if url = "https://wiki.example/wiki/rest/api/content?limit=1000&status=current&spaceKey=ENG"
  then { results := some [sampleMeta1], next := some "/rest/api/content?start=1000" }
  else if url = "https://wiki.example/wiki/rest/api/content?start=1000"
  then { results := some [sampleMeta2], next := none }
  else { results := none, next := none }

/-- C4: pagination performs exactly one list fetch per page, following
`_links.next` until absent, and concatenates the pages' self-links in
page order.  Conjuncts: `getDocumentsFromSpace` starts the crawl at the
space's content-list URL; a response without `results` stops the loop
after that single fetch without an error; a response with `results` and
no `next` makes the first fetch the only fetch and yields exactly its
self-links; with two sequential pages exactly two fetches happen and the
result is page-1 self-links followed by page-2 self-links. -/
theorem crawlSpace_pagination
    (fetchList : String → ConfluenceDocumentList)
    (wikiUrl url : String) (fuel : Nat) :
    (∀ space, getDocumentsFromSpace fetchList wikiUrl fuel space =
        crawlSpace fetchList wikiUrl fuel
          (wikiUrl ++ "/rest/api/content?limit=1000&status=current&spaceKey=" ++ space)) ∧
    ((fetchList url).results = none → 1 ≤ fuel →
        crawlSpace fetchList wikiUrl fuel url = ([], 1)) ∧
    (∀ results, (fetchList url).results = some results →
        (fetchList url).next = none → 1 ≤ fuel →
        crawlSpace fetchList wikiUrl fuel url
          = (results.map (fun result => result.links.self), 1)) ∧
    (∀ results1 nextPath results2,
        (fetchList url).results = some results1 →
        (fetchList url).next = some nextPath →
        (fetchList (wikiUrl ++ nextPath)).results = some results2 →
        (fetchList (wikiUrl ++ nextPath)).next = none →
        2 ≤ fuel →
        crawlSpace fetchList wikiUrl fuel url
          = (results1.map (fun result => result.links.self)
             ++ results2.map (fun result => result.links.self), 2)) := by
  refine ⟨fun _ => rfl, ?_, ?_, ?_⟩
  · intro hres hfuel
    obtain ⟨f, rfl⟩ : ∃ f, fuel = f + 1 := ⟨fuel - 1, by omega⟩
    simp [crawlSpace, hres]
  · intro results hres hnext hfuel
    obtain ⟨f, rfl⟩ : ∃ f, fuel = f + 1 := ⟨fuel - 1, by omega⟩
    simp [crawlSpace, hres, hnext]
  · intro results1 nextPath results2 h1res h1next h2res h2next hfuel
    obtain ⟨f, rfl⟩ : ∃ f, fuel = f + 2 := ⟨fuel - 2, by omega⟩
    simp [crawlSpace, h1res, h1next, h2res, h2next]

/-- Witness for C4: the sample two-page space is crawled with exactly two
fetches, yielding page one's then page two's self-link. -/
theorem crawlSpace_pagination_witness :
    crawlSpace sampleListFetch "https://wiki.example/wiki" 2
      "https://wiki.example/wiki/rest/api/content?limit=1000&status=current&spaceKey=ENG"
      = (["https://wiki.example/wiki/rest/api/content/1",
          "https://wiki.example/wiki/rest/api/content/2"], 2) :=
  (crawlSpace_pagination sampleListFetch "https://wiki.example/wiki"
      "https://wiki.example/wiki/rest/api/content?limit=1000&status=current&spaceKey=ENG"
      2).2.2.2
    [sampleMeta1] "/rest/api/content?start=1000" [sampleMeta2]
    (by decide) (by decide) (by decide) (by decide) (by omega)

/-- C6: with a catalog client configured, space resolution splits each
matching entity's annotation value on commas, trims each token, and
concatenates all tokens across entities in order without deduplication;
in particular two entities annotated `"Eng, Sales"` and `"Marketing"`
resolve to `["Eng", "Sales", "Marketing"]`. -/
theorem getSpaces_catalog_accumulation :
    (∀ items1 items2 : List CatalogEntity,
        getSpacesFromCatalog (items1 ++ items2)
          = getSpacesFromCatalog items1 ++ getSpacesFromCatalog items2) ∧
    (∀ staticSpaces : List String,
        getSpaces (some [{ annotationValue := "Eng, Sales" },
                         { annotationValue := "Marketing" }]) staticSpaces
          = ["Eng", "Sales", "Marketing"]) := by
  constructor
  · intro items1 items2
    simp [getSpacesFromCatalog]
  · intro staticSpaces
    rfl

/-- A concrete failed HTTP response observed by `get`. -/
def sampleErrorResponse : HttpResponse Nat :=
  { status := 404, statusText := "Not Found", jsonBody := 0 }

/-- C8: `get` returns the decoded JSON body exactly when the response is
2xx, and on a non-2xx response fails with an error carrying the HTTP
status code and status text. -/
theorem get_ok_iff_2xx (T : Type) (res : HttpResponse T) :
    (get res = .ok res.jsonBody ↔ responseOk res = true) ∧
    (responseOk res = false →
        get res = .error ("Request failed with " ++ toString res.status
          ++ " " ++ res.statusText)) := by
  constructor
  · constructor
    · intro h
      by_cases hok : responseOk res = true
      · exact hok
      · rw [get, if_neg (by simp [hok])] at h
        exact absurd h (by simp)
    · intro hok
      rw [get, if_pos hok]
  · intro hnot
    rw [get, if_neg (by simp [hnot])]

/-- Witness for C8 at a concrete 404 response: the wrapper throws the
error message built from the status code and status text. -/
theorem get_ok_iff_2xx_witness :
    Confluence.get sampleErrorResponse
      = .error ("Request failed with " ++ toString sampleErrorResponse.status
          ++ " " ++ sampleErrorResponse.statusText) :=
  (get_ok_iff_2xx Nat sampleErrorResponse).2 (by decide)

/-- C10: `fromConfig` applies the default parallelism limit 15 to every
falsy `parallelismLimit` — both an omitted option and an explicit `0` —
while any non-zero value is kept. -/
theorem fromConfig_parallelism_default :
    fromConfigParallelismLimit none = 15 ∧
    fromConfigParallelismLimit (some 0) = 15 ∧
    (∀ n : Nat, n ≠ 0 → fromConfigParallelismLimit (some n) = n) := by
  refine ⟨rfl, rfl, ?_⟩
  intro n hn
  simp [fromConfigParallelismLimit, jsOrNat, hn]

/-- Witness for C10: an explicit non-zero limit is kept as supplied. -/
theorem fromConfig_parallelism_default_witness :
    fromConfigParallelismLimit (some 7) = 7 :=
  fromConfig_parallelism_default.2.2 7 (by decide)

end Confluence
